import Mathlib

/-!
Shallow embedding of the `bft-rs` repository (files `src/lib.rs`,
`src/voteset.rs`, `src/actuator.rs`) and verification of claims about it.

Rust `HashMap` is modelled as an association list with unique keys built by
the operations themselves; Rust `LruCache` (crate `lru-cache`, capacity 16)
is modelled as a recency-ordered association list together with a capacity,
most-recently-used entry first.  In that crate `contains_key` and `get_mut`
both refresh the entry's recency, and `insert` evicts the least-recently-used
entry when the length exceeds the capacity; the model mirrors this.
-/

set_option autoImplicit false

namespace BftRs

/-- Rust `Address` is `Vec<u8>` in `lib.rs`; bytes are modelled as `Nat`. -/
abbrev Address := List Nat

/-- Rust `Target` is `Vec<u8>` in `lib.rs`. -/
abbrev Target := List Nat

/-- Rust `VoteType` from `lib.rs`. -/
inductive VoteType where
  | Prevote
  | Precommit
deriving DecidableEq

/-- Rust `Vote` from `lib.rs`. -/
structure Vote where
  vote_type : VoteType
  height : Nat
  round : Nat
  proposal : Target
  voter : Address
deriving DecidableEq

/-- Rust `Proposal` from `lib.rs`. -/
structure Proposal where
  height : Nat
  round : Nat
  content : Target
  lock_round : Option Nat
  lock_votes : Option (List Vote)
  proposer : Address
deriving DecidableEq

/-- Rust `Feed` from `lib.rs`. -/
structure Feed where
  height : Nat
  proposal : Target
deriving DecidableEq

/-- Rust `Status` from `lib.rs`. -/
structure Status where
  height : Nat
  interval : Option Nat
  authority_list : List Address
deriving DecidableEq

/-- Rust `Commit` from `lib.rs`. -/
structure Commit where
  height : Nat
  round : Nat
  proposal : Target
  lock_votes : List Vote
  address : Address
deriving DecidableEq

/-- Rust `BftMsg` from `lib.rs` (the `verify_req` feature is off, so no
`VerifyResp` variant). -/
inductive BftMsg where
  | Proposal (p : BftRs.Proposal)
  | Vote (v : BftRs.Vote)
  | Feed (f : BftRs.Feed)
  | Status (s : BftRs.Status)
  | Commit (c : BftRs.Commit)
  | Pause
  | Start
deriving DecidableEq

/-- Modelled from the spec: the error enum `BftError` lives in
`src/error.rs`, which is not among the provided sources; its variants are
taken from spec section 7 and the uses in `src/actuator.rs`. -/
inductive BftError where
  | ProposalIllegal (h r : Nat)
  | MsgTypeErr
  | SendProposalErr
  | SendVoteErr
  | SendCmdErr
deriving DecidableEq

/-! ### Association lists (model of `std::collections::HashMap`) -/

/-- First value bound to key `k`, if any (`HashMap::get`). -/
def mlookup {α β : Type} [DecidableEq α] : List (α × β) → α → Option β
  | [], _ => none
  | (k', v) :: rest, k => if k' = k then some v else mlookup rest k

/-- Rust `entry(k).or_insert_with(|| v)`: insert `v` at `k` only when `k` is
absent; reports whether an insertion happened. -/
def insertIfAbsent {α β : Type} [DecidableEq α]
    (m : List (α × β)) (k : α) (v : β) : List (α × β) × Bool :=
  match mlookup m k with
  | some _ => (m, false)
  | none => ((k, v) :: m, true)

/-- Rust `*map.entry(k).or_insert(0) += 1`. -/
def bump {α : Type} [DecidableEq α] : List (α × Nat) → α → List (α × Nat)
  | [], k => [(k, 1)]
  | (k', v) :: rest, k =>
    if k' = k then (k', v + 1) :: rest else (k', v) :: bump rest k

/-- Store `v` at key `k`, replacing in place a previous binding. -/
def mstore {α β : Type} [DecidableEq α] : List (α × β) → α → β → List (α × β)
  | [], k, v => [(k, v)]
  | (k', v') :: rest, k, v =>
    if k' = k then (k', v) :: rest else (k', v') :: mstore rest k v

/-- Value at key `k` read as a count, `0` when absent. -/
def countOf {α : Type} [DecidableEq α] (m : List (α × Nat)) (k : α) : Nat :=
  (mlookup m k).getD 0

/-! ### LruCache (crate `lru-cache`, as used with capacity 16) -/

/-- Recency-ordered map: most recently used entry first. -/
structure LruCache (α β : Type) where
  entries : List (α × β)
  cap : Nat
deriving DecidableEq

/-- Rust `LruCache::new(cap)`. -/
def LruCache.mk' {α β : Type} (cap : Nat) : LruCache α β := ⟨[], cap⟩

/-- Drop every entry bound to `k`. -/
def eraseKey {α β : Type} [DecidableEq α]
    (m : List (α × β)) (k : α) : List (α × β) :=
  m.filter (fun e => decide (e.1 ≠ k))

/-- Rust `contains_key` (which in the `lru-cache` crate is `get_mut(..).is_some()`
and hence refreshes the entry's recency). -/
def LruCache.containsKey {α β : Type} [DecidableEq α]
    (c : LruCache α β) (k : α) : LruCache α β × Bool :=
  match mlookup c.entries k with
  | none => (c, false)
  | some v => (⟨(k, v) :: eraseKey c.entries k, c.cap⟩, true)

/-- Rust `get_mut(k)` followed by a mutation of the stored value through the
returned reference: refreshes recency and applies `f`, returning the
by-product of `f` (or `none` when `k` is absent). -/
def LruCache.withGetMut {α β γ : Type} [DecidableEq α]
    (c : LruCache α β) (k : α) (f : β → β × γ) : LruCache α β × Option γ :=
  match mlookup c.entries k with
  | none => (c, none)
  | some v =>
    let p := f v
    (⟨(k, p.1) :: eraseKey c.entries k, c.cap⟩, some p.2)

/-- Rust `get_mut(k)` used read-only (as in `get_voteset`): refreshes recency and
returns the stored value. -/
def LruCache.touch {α β : Type} [DecidableEq α]
    (c : LruCache α β) (k : α) : LruCache α β × Option β :=
  match mlookup c.entries k with
  | none => (c, none)
  | some v => (⟨(k, v) :: eraseKey c.entries k, c.cap⟩, some v)

/-- Rust `insert(k, v)`: binds `k` to `v` as most recent, evicting the
least-recently-used entry when the length exceeds the capacity.  In
`voteset.rs` it is only called when `k` is absent. -/
def LruCache.insert {α β : Type} [DecidableEq α]
    (c : LruCache α β) (k : α) (v : β) : LruCache α β :=
  let es := (k, v) :: eraseKey c.entries k
  ⟨if c.cap < es.length then es.dropLast else es, c.cap⟩

/-! ### `voteset.rs` -/

/-- Rust `VoteSet` from `voteset.rs`. -/
structure VoteSet where
  votes_by_sender : List (Address × Target)
  votes_by_proposal : List (Target × Nat)
  count : Nat
deriving DecidableEq

/-- Rust `VoteSet::new`. -/
def VoteSet.new : VoteSet := ⟨[], [], 0⟩

/-- Rust `VoteSet::add` ("just add, not check"): accepts the vote only when the
sender has no recorded vote; on acceptance records the sender's target,
bumps the per-proposal counter and the total count. -/
def VoteSet.add (s : VoteSet) (sender : Address) (vote : Target) :
    VoteSet × Bool :=
  match mlookup s.votes_by_sender sender with
  | some _ => (s, false)
  | none =>
    (⟨(sender, vote) :: s.votes_by_sender,
      bump s.votes_by_proposal vote,
      s.count + 1⟩, true)

/-- Rust `VoteSet::abstract_polc`: one `Vote` per sender whose recorded target
equals `proposal`, built from the supplied fields. -/
def VoteSet.abstract_polc (s : VoteSet) (height round : Nat)
    (vt : VoteType) (proposal : Target) : List Vote :=
  (s.votes_by_sender.filter (fun e => decide (e.2 = proposal))).map
    (fun e => ⟨vt, height, round, proposal, e.1⟩)

/-- Rust `StepCollector` from `voteset.rs`: map step (vote type) to `VoteSet`. -/
structure StepCollector where
  step_votes : List (VoteType × VoteSet)
deriving DecidableEq

/-- Rust `StepCollector::new`. -/
def StepCollector.new : StepCollector := ⟨[]⟩

/-- Rust `StepCollector::add`: `entry(vote_type).or_insert_with(VoteSet::new).add`. -/
def StepCollector.add (sc : StepCollector) (vt : VoteType)
    (sender : Address) (vote : Target) : StepCollector × Bool :=
  let vs := (mlookup sc.step_votes vt).getD VoteSet.new
  let p := vs.add sender vote
  (⟨mstore sc.step_votes vt p.1⟩, p.2)

/-- Rust `StepCollector::get_voteset`: `step_votes.get(&vote_type).cloned()`. -/
def StepCollector.get_voteset (sc : StepCollector) (vt : VoteType) :
    Option VoteSet :=
  mlookup sc.step_votes vt

/-- Rust `RoundCollector` from `voteset.rs`: LRU (capacity 16) round map. -/
structure RoundCollector where
  round_votes : LruCache Nat StepCollector
deriving DecidableEq

/-- Rust `RoundCollector::new`. -/
def RoundCollector.new : RoundCollector := ⟨LruCache.mk' 16⟩

/-- Rust `RoundCollector::add`. -/
def RoundCollector.add (rc : RoundCollector) (round : Nat) (vt : VoteType)
    (sender : Address) (vote : Target) : RoundCollector × Bool :=
  let c1 := rc.round_votes.containsKey round
  if c1.2 then
    let p := c1.1.withGetMut round (fun sc => sc.add vt sender vote)
    (⟨p.1⟩, p.2.getD false)
  else
    let sc := (StepCollector.new.add vt sender vote).1
    (⟨c1.1.insert round sc⟩, true)

/-- Rust `RoundCollector::get_voteset`. -/
def RoundCollector.get_voteset (rc : RoundCollector) (round : Nat)
    (vt : VoteType) : RoundCollector × Option VoteSet :=
  let p := rc.round_votes.touch round
  (⟨p.1⟩, p.2.bind (fun sc => sc.get_voteset vt))

/-- Rust `VoteCollector` from `voteset.rs`: LRU (capacity 16) height map plus
the round-keyed prevote counter. -/
structure VoteCollector where
  votes : LruCache Nat RoundCollector
  prevote_count : List (Nat × Nat)
deriving DecidableEq

/-- Rust `VoteCollector::new`. -/
def VoteCollector.new : VoteCollector := ⟨LruCache.mk' 16, []⟩

/-- Rust `VoteCollector::add`. -/
def VoteCollector.add (c : VoteCollector) (vote : Vote) :
    VoteCollector × Bool :=
  let height := vote.height
  let round := vote.round
  let vt := vote.vote_type
  let sender := vote.voter
  let v := vote.proposal
  if vt = VoteType.Prevote then
    let c1 := c.votes.containsKey height
    if c1.2 then
      let p := c1.1.withGetMut height (fun rc => rc.add round vt sender v)
      if p.2.getD false then
        (⟨p.1, bump c.prevote_count round⟩, true)
      else
        (⟨p.1, c.prevote_count⟩, false)
    else
      let rc := (RoundCollector.new.add round vt sender v).1
      (⟨c1.1.insert height rc, bump c.prevote_count round⟩, true)
  else
    let c1 := c.votes.containsKey height
    if c1.2 then
      let p := c1.1.withGetMut height (fun rc => rc.add round vt sender v)
      (⟨p.1, c.prevote_count⟩, p.2.getD false)
    else
      let rc := (RoundCollector.new.add round vt sender v).1
      (⟨c1.1.insert height rc, c.prevote_count⟩, true)

/-- Rust `VoteCollector::get_voteset`. -/
def VoteCollector.get_voteset (c : VoteCollector) (height round : Nat)
    (vt : VoteType) : VoteCollector × Option VoteSet :=
  let p := c.votes.withGetMut height (fun rc => rc.get_voteset round vt)
  (⟨p.1, c.prevote_count⟩, p.2.getD none)

/-- Rust `VoteCollector::clear_prevote_count`. -/
def VoteCollector.clear_prevote_count (c : VoteCollector) : VoteCollector :=
  ⟨c.votes, []⟩

/-! ### `actuator.rs` -/

/-- The sending half of the engine's unbounded crossbeam channel: the queue
of enqueued messages plus whether the receiving half is still alive.
`send` succeeds exactly when the receiver is alive. -/
structure Channel where
  queue : List BftMsg
  receiver_alive : Bool

/-- Rust `Sender::send`: enqueue when the receiver is alive, fail otherwise. -/
def Channel.send (ch : Channel) (m : BftMsg) : Channel × Bool :=
  if ch.receiver_alive then (⟨ch.queue ++ [m], ch.receiver_alive⟩, true)
  else (ch, false)

/-- The `lock_votes.is_empty()` test of `send_proposal`.  In `lib.rs`
`lock_votes` is `Option<Vec<Vote>>`; emptiness is read as carrying no
votes: `None` or `Some` of an empty vector. -/
def lockVotesEmpty : Option (List Vote) → Bool
  | none => true
  | some vs => vs.isEmpty

/-- Rust `BftActuator::send_proposal`: reject with `ProposalIllegal` when a lock
round is claimed but no lock votes are carried; otherwise enqueue, mapping a
channel failure to `SendProposalErr`. -/
def send_proposal (ch : Channel) (p : Proposal) :
    Channel × Except BftError Unit :=
  if p.lock_round.isSome && lockVotesEmpty p.lock_votes then
    (ch, Except.error (BftError.ProposalIllegal p.height p.round))
  else
    let r := ch.send (BftMsg.Proposal p)
    (r.1, if r.2 then Except.ok () else Except.error BftError.SendProposalErr)

/-- Rust `BftActuator::send_vote`. -/
def send_vote (ch : Channel) (v : Vote) : Channel × Except BftError Unit :=
  let r := ch.send (BftMsg.Vote v)
  (r.1, if r.2 then Except.ok () else Except.error BftError.SendVoteErr)

/-- Rust `BftActuator::send_status` (note: a channel failure is mapped to
`SendVoteErr` in the source). -/
def send_status (ch : Channel) (s : Status) : Channel × Except BftError Unit :=
  let r := ch.send (BftMsg.Status s)
  (r.1, if r.2 then Except.ok () else Except.error BftError.SendVoteErr)

/-- Rust `BftActuator::send_command`: only `Pause` and `Start` pass the match;
then enqueue, mapping a channel failure to `SendCmdErr`. -/
def send_command (ch : Channel) (cmd : BftMsg) :
    Channel × Except BftError Unit :=
  match cmd with
  | BftMsg.Pause =>
    let r := ch.send cmd
    (r.1, if r.2 then Except.ok () else Except.error BftError.SendCmdErr)
  | BftMsg.Start =>
    let r := ch.send cmd
    (r.1, if r.2 then Except.ok () else Except.error BftError.SendCmdErr)
  | _ => (ch, Except.error BftError.MsgTypeErr)

/-! ### Derived views and runs used to state the claims -/

/-- The target currently retained for key `(height, round, vt, voter)`:
the pure (refresh-free) read of the nested collector maps. -/
def VoteCollector.retains (c : VoteCollector) (height round : Nat)
    (vt : VoteType) (voter : Address) : Option Target :=
  (mlookup c.votes.entries height).bind fun rc =>
    (mlookup rc.round_votes.entries round).bind fun sc =>
      (mlookup sc.step_votes vt).bind fun vs =>
        mlookup vs.votes_by_sender voter

/-- The `VoteSet` currently stored for `(height, round, vt)`: the pure
(refresh-free) read of the nested collector maps. -/
def VoteCollector.peek_voteset (c : VoteCollector) (height round : Nat)
    (vt : VoteType) : Option VoteSet :=
  (mlookup c.votes.entries height).bind fun rc =>
    (mlookup rc.round_votes.entries round).bind fun sc =>
      mlookup sc.step_votes vt

/-- Fold `VoteSet::add` over a list of `(sender, target)` pairs. -/
def buildVoteSet (ops : List (Address × Target)) : VoteSet :=
  ops.foldl (fun s p => (s.add p.1 p.2).1) VoteSet.new

/-- Fold `VoteCollector::add` over a list of votes. -/
def VoteCollector.addAll (c : VoteCollector) (vs : List Vote) : VoteCollector :=
  vs.foldl (fun c v => (c.add v).1) c

/-- The boolean results of adding the votes in order. -/
def VoteCollector.addResults (c : VoteCollector) : List Vote → List Bool
  | [] => []
  | v :: rest => (c.add v).2 :: (c.add v).1.addResults rest

/-- How many of the adds, run in order from `c`, newly accept a `Prevote`
at round `r`. -/
def acceptedPrevotesAt (c : VoteCollector) (r : Nat) : List Vote → Nat
  | [] => 0
  | v :: rest =>
    (if v.vote_type = VoteType.Prevote ∧ v.round = r ∧ (c.add v).2 = true
     then 1 else 0) + acceptedPrevotesAt (c.add v).1 r rest

/-- Total number of prevotes retained at round `r`, summed over the heights
resident in the collector. -/
def residentPrevotesAt (c : VoteCollector) (r : Nat) : Nat :=
  (c.votes.entries.map (fun e =>
    match mlookup e.2.round_votes.entries r with
    | none => 0
    | some sc =>
      match mlookup sc.step_votes VoteType.Prevote with
      | none => 0
      | some vs => vs.votes_by_sender.length)).sum

/-- Sum of the per-proposal counters. -/
def sumValues (m : List (Target × Nat)) : Nat := (m.map (fun e => e.2)).sum

/-- The count invariant of spec section 3:
`count = Σ counts_by_proposal = |voters|`. -/
def VoteSet.coherent (s : VoteSet) : Prop :=
  s.count = sumValues s.votes_by_proposal
  ∧ s.count = s.votes_by_sender.length

/-- Well-formedness of a `VoteSet` reachable from `new`: sender keys are
distinct and each per-proposal counter counts the senders recorded for that
proposal. -/
def VoteSet.wf (s : VoteSet) : Prop :=
  (s.votes_by_sender.map (fun e => e.1)).Nodup
  ∧ ∀ t : Target, countOf s.votes_by_proposal t
      = (s.votes_by_sender.filter (fun e => decide (e.2 = t))).length

/-! ### Concrete inputs for counterexamples and witnesses -/

/-- A prevote at height `h`, round 0, for target `[7]`, from voter `[1]`. -/
def prevoteAt (h : Nat) : Vote := ⟨VoteType.Prevote, h, 0, [7], [1]⟩

/-- 17 prevotes at distinct heights `0..16`: one more height than the
height LRU's capacity of 16, so height 0 is evicted. -/
def evictionVotes : List Vote := (List.range 17).map prevoteAt

/-- Spec scenario S4's Byzantine proposal: `lock_round = Some(5)` but only
2 lock votes (fewer than `2f+1 = 3` for the 4-authority scenario). -/
def proposalS4 : Proposal :=
  ⟨1, 0, [1], some 5,
   some [⟨VoteType.Prevote, 1, 5, [1], [10]⟩,
         ⟨VoteType.Prevote, 1, 5, [1], [11]⟩],
   [10]⟩

/-! ### Lemmas on the map helpers -/

theorem countOf_bump_self {α : Type} [DecidableEq α]
    (m : List (α × Nat)) (k : α) :
    countOf (bump m k) k = countOf m k + 1 := by
  induction m with
  | nil => simp [bump, countOf, mlookup]
  | cons e rest ih =>
    obtain ⟨k', v⟩ := e
    by_cases h : k' = k
    · subst h; simp [bump, countOf, mlookup]
    · simp only [bump, if_neg h]
      simpa [countOf, mlookup, h] using ih

theorem countOf_bump_other {α : Type} [DecidableEq α]
    (m : List (α × Nat)) (k k' : α) (h : k' ≠ k) :
    countOf (bump m k) k' = countOf m k' := by
  induction m with
  | nil => simp [bump, countOf, mlookup, Ne.symm h]
  | cons e rest ih =>
    obtain ⟨k'', v⟩ := e
    by_cases h2 : k'' = k
    · subst h2
      simp [bump, countOf, mlookup, Ne.symm h]
    · by_cases h3 : k'' = k'
      · subst h3; simp [bump, countOf, mlookup, h2]
      · simp only [bump, if_neg h2]
        simpa [countOf, mlookup, h3] using ih

theorem sumValues_bump (m : List (Target × Nat)) (t : Target) :
    sumValues (bump m t) = sumValues m + 1 := by
  induction m with
  | nil => rfl
  | cons e rest ih =>
    obtain ⟨t', v⟩ := e
    by_cases h : t' = t
    · simp [bump, h, sumValues]
      omega
    · simp only [bump, if_neg h]
      simp [sumValues] at ih ⊢
      omega

/-! ### Lemmas on `VoteSet::add` -/

theorem VoteSet.add_true_iff_sender_absent (s : VoteSet) (a : Address) (t : Target) :
    (s.add a t).2 = true ↔ mlookup s.votes_by_sender a = none := by
  unfold VoteSet.add
  cases hm : mlookup s.votes_by_sender a <;> simp [hm]

theorem VoteSet.lookup_add_preserved (s : VoteSet) (a a' : Address)
    (t t' : Target) (h : mlookup s.votes_by_sender a = some t) :
    mlookup ((s.add a' t').1).votes_by_sender a = some t := by
  unfold VoteSet.add
  cases hm : mlookup s.votes_by_sender a' with
  | some u => simpa [hm] using h
  | none =>
    have hne : a' ≠ a := by
      intro he; rw [he, h] at hm; cases hm
    simpa [hm, mlookup, hne] using h

theorem VoteSet.lookup_foldl_preserved (ops : List (Address × Target))
    (s : VoteSet) (a : Address) (t : Target)
    (h : mlookup s.votes_by_sender a = some t) :
    mlookup ((ops.foldl (fun u p => (u.add p.1 p.2).1) s).votes_by_sender) a
      = some t := by
  induction ops generalizing s with
  | nil => exact h
  | cons p rest ih =>
    exact ih _ (VoteSet.lookup_add_preserved s a p.1 t p.2 h)

theorem VoteSet.add_of_lookup_some (s : VoteSet) (a : Address) (t t' : Target)
    (h : mlookup s.votes_by_sender a = some t) :
    s.add a t' = (s, false) := by
  simp [VoteSet.add, h]

theorem VoteSet.coherent_add (s : VoteSet) (a : Address) (t : Target)
    (h : s.coherent) : ((s.add a t).1).coherent := by
  obtain ⟨h1, h2⟩ := h
  cases hm : mlookup s.votes_by_sender a with
  | some u => simpa [VoteSet.add, hm, VoteSet.coherent] using ⟨h1, h2⟩
  | none =>
    simp [VoteSet.add, hm, VoteSet.coherent, sumValues_bump]
    omega

theorem buildVoteSet_loop_coherent (ops : List (Address × Target))
    (s : VoteSet) (h : s.coherent) :
    (ops.foldl (fun u p => (u.add p.1 p.2).1) s).coherent := by
  induction ops generalizing s with
  | nil => exact h
  | cons p rest ih => exact ih _ (VoteSet.coherent_add _ _ _ h)

/-! ### The prevote counter under one `VoteCollector::add` -/

theorem VoteCollector.add_prevote_count (c : VoteCollector) (v : Vote) :
    (c.add v).1.prevote_count
      = if v.vote_type = VoteType.Prevote ∧ (c.add v).2 = true
        then bump c.prevote_count v.round
        else c.prevote_count := by
  cases hvt : v.vote_type with
  | Precommit =>
    cases hm : mlookup c.votes.entries v.height with
    | none =>
      simp [VoteCollector.add, LruCache.containsKey, hvt, hm]
    | some rc =>
      simp [VoteCollector.add, LruCache.containsKey, LruCache.withGetMut,
        hvt, hm, mlookup]
  | Prevote =>
    cases hm : mlookup c.votes.entries v.height with
    | none =>
      simp [VoteCollector.add, LruCache.containsKey, hvt, hm]
    | some rc =>
      cases hb : (rc.add v.round VoteType.Prevote v.voter v.proposal).2 with
      | true =>
        simp [VoteCollector.add, LruCache.containsKey, LruCache.withGetMut,
          hvt, hm, mlookup, hb]
      | false =>
        simp [VoteCollector.add, LruCache.containsKey, LruCache.withGetMut,
          hvt, hm, mlookup, hb]

/-! ### Claim C1 -/

/-- C1, counterexample: scenario S4's proposal (`lock_round = Some(5)`,
only 2 lock votes, fewer than the `2f+1 = 3` prevote quorum of the
4-authority scenario) violates the PoLC coherence invariant, yet
`send_proposal` accepts and enqueues it instead of returning
`ProposalIllegal(1, 0)`. -/
theorem C1_counterexample :
    proposalS4.lock_round.isSome = true
    ∧ (proposalS4.lock_votes.getD []).length = 2
    ∧ (send_proposal ⟨[], true⟩ proposalS4).2 = Except.ok () :=
  ⟨rfl, rfl, rfl⟩

/-- C1, amended: `send_proposal(p)` returns
`Err(ProposalIllegal(p.height, p.round))` if and only if `p.lock_round` is
`Some` while `p.lock_votes` carries no votes; the `2f+1` quorum size of the
lock votes is not checked, and `lock_votes` without `lock_round` is not
rejected either. -/
theorem C1_send_proposal_illegal_iff (ch : Channel) (p : Proposal) :
    (send_proposal ch p).2
        = Except.error (BftError.ProposalIllegal p.height p.round)
      ↔ p.lock_round.isSome = true ∧ lockVotesEmpty p.lock_votes = true := by
  cases hB : (p.lock_round.isSome && lockVotesEmpty p.lock_votes) with
  | true =>
    have hco := hB
    rw [Bool.and_eq_true] at hco
    simp [send_proposal, hB, hco.1, hco.2]
  | false =>
    have hco : ¬(p.lock_round.isSome = true
        ∧ lockVotesEmpty p.lock_votes = true) := by
      intro hcc
      have ht : (p.lock_round.isSome && lockVotesEmpty p.lock_votes) = true := by
        rw [Bool.and_eq_true]; exact hcc
      rw [ht] at hB
      simp at hB
    cases ha : ch.receiver_alive <;>
      simp [send_proposal, hB, Channel.send, ha, hco]

/-! ### Claim C7 -/

/-- C7: `send_command(cmd)` returns `Err(MsgTypeErr)` and enqueues nothing
for every `cmd` other than `Pause` and `Start`; for `Pause` and `Start`
(with the engine's receiver alive) it enqueues `cmd` and returns `Ok(())`. -/
theorem C7_send_command_cases (ch : Channel) (cmd : BftMsg) :
    (cmd ≠ BftMsg.Pause → cmd ≠ BftMsg.Start →
      send_command ch cmd = (ch, Except.error BftError.MsgTypeErr))
    ∧ ((cmd = BftMsg.Pause ∨ cmd = BftMsg.Start) → ch.receiver_alive = true →
      send_command ch cmd
        = (⟨ch.queue ++ [cmd], ch.receiver_alive⟩, Except.ok ())) := by
  constructor
  · intro h1 h2
    cases cmd <;> first
      | rfl
      | exact absurd rfl h1
      | exact absurd rfl h2
  · rintro (rfl | rfl) ha <;> simp [send_command, Channel.send, ha]

/-- C7, witness: a `Feed` command is refused with `MsgTypeErr` and the queue
is untouched; `Pause` is enqueued. -/
theorem C7_send_command_cases_witness :
    send_command ⟨[], true⟩ (BftMsg.Feed ⟨0, []⟩)
      = (⟨[], true⟩, Except.error BftError.MsgTypeErr)
    ∧ send_command ⟨[], true⟩ BftMsg.Pause
      = (⟨[BftMsg.Pause], true⟩, Except.ok ()) :=
  ⟨(C7_send_command_cases ⟨[], true⟩ (BftMsg.Feed ⟨0, []⟩)).1
      (by decide) (by decide),
   (C7_send_command_cases ⟨[], true⟩ BftMsg.Pause).2 (Or.inl rfl) rfl⟩

/-! ### Claim C8 -/

/-- C8: each actuator enqueue operation — `send_proposal` with a proposal
passing the lock check, `send_vote`, `send_status`, and `send_command` with
`Pause` or `Start` — returns `Ok(())` when the engine's receiver is alive,
and returns the matching `SendErr` variant (`SendProposalErr`,
`SendVoteErr` — also used by `send_status` — or `SendCmdErr`), leaving the
queue unchanged, when the receiver has been dropped. -/
theorem C8_enqueue_results (ch : Channel) (p : Proposal) (v : Vote)
    (s : Status) (cmd : BftMsg)
    (hp : ¬(p.lock_round.isSome = true ∧ lockVotesEmpty p.lock_votes = true))
    (hcmd : cmd = BftMsg.Pause ∨ cmd = BftMsg.Start) :
    (ch.receiver_alive = true →
      (send_proposal ch p).2 = Except.ok ()
      ∧ (send_vote ch v).2 = Except.ok ()
      ∧ (send_status ch s).2 = Except.ok ()
      ∧ (send_command ch cmd).2 = Except.ok ())
    ∧ (ch.receiver_alive = false →
      send_proposal ch p = (ch, Except.error BftError.SendProposalErr)
      ∧ send_vote ch v = (ch, Except.error BftError.SendVoteErr)
      ∧ send_status ch s = (ch, Except.error BftError.SendVoteErr)
      ∧ send_command ch cmd = (ch, Except.error BftError.SendCmdErr)) := by
  have hp' : (p.lock_round.isSome && lockVotesEmpty p.lock_votes) = false := by
    rcases Bool.eq_false_or_eq_true
        (p.lock_round.isSome && lockVotesEmpty p.lock_votes) with h | h
    all_goals first
      | exact h
      | (rw [Bool.and_eq_true] at h; exact absurd h hp)
  constructor
  · intro ha
    refine ⟨?_, ?_, ?_, ?_⟩
    · simp [send_proposal, Channel.send, hp', ha]
    · simp [send_vote, Channel.send, ha]
    · simp [send_status, Channel.send, ha]
    · rcases hcmd with rfl | rfl <;> simp [send_command, Channel.send, ha]
  · intro ha
    refine ⟨?_, ?_, ?_, ?_⟩
    · simp [send_proposal, Channel.send, hp', ha]
    · simp [send_vote, Channel.send, ha]
    · simp [send_status, Channel.send, ha]
    · rcases hcmd with rfl | rfl <;> simp [send_command, Channel.send, ha]

/-- C8, witness: on a live channel `send_vote` succeeds; on a dropped
channel it fails with `SendVoteErr` and the queue is unchanged. -/
theorem C8_enqueue_results_witness :
    (send_vote ⟨[], true⟩ (prevoteAt 0)).2 = Except.ok ()
    ∧ send_vote ⟨[], false⟩ (prevoteAt 0)
        = (⟨[], false⟩, Except.error BftError.SendVoteErr) :=
  ⟨((C8_enqueue_results ⟨[], true⟩ proposalS4 (prevoteAt 0) ⟨1, none, []⟩
      BftMsg.Pause (by decide) (Or.inl rfl)).1 rfl).2.1,
   ((C8_enqueue_results ⟨[], false⟩ proposalS4 (prevoteAt 0) ⟨1, none, []⟩
      BftMsg.Pause (by decide) (Or.inl rfl)).2 rfl).2.1⟩

/-! ### Acceptance of an add at each collector level -/

theorem StepCollector.add_true_iff_step_absent (sc : StepCollector) (vt : VoteType)
    (a : Address) (t : Target) :
    (sc.add vt a t).2 = true
      ↔ ((mlookup sc.step_votes vt).bind
          (fun vs => mlookup vs.votes_by_sender a)) = none := by
  unfold StepCollector.add
  cases hm : mlookup sc.step_votes vt with
  | none => simp [hm, VoteSet.add_true_iff_sender_absent, VoteSet.new, mlookup]
  | some vs => simp [hm, VoteSet.add_true_iff_sender_absent]

theorem RoundCollector.add_true_iff_round_absent (rc : RoundCollector) (round : Nat)
    (vt : VoteType) (a : Address) (t : Target) :
    (rc.add round vt a t).2 = true
      ↔ ((mlookup rc.round_votes.entries round).bind fun sc =>
          (mlookup sc.step_votes vt).bind fun vs =>
            mlookup vs.votes_by_sender a) = none := by
  unfold RoundCollector.add
  cases hm : mlookup rc.round_votes.entries round with
  | none => simp [LruCache.containsKey, hm]
  | some sc =>
    simp [LruCache.containsKey, LruCache.withGetMut, hm, mlookup,
      StepCollector.add_true_iff_step_absent]

theorem VoteCollector.add_snd_eq (c : VoteCollector) (v : Vote)
    (rc : RoundCollector) (hm : mlookup c.votes.entries v.height = some rc) :
    (c.add v).2 = (rc.add v.round v.vote_type v.voter v.proposal).2 := by
  cases hvt : v.vote_type with
  | Prevote =>
    cases hb : (rc.add v.round VoteType.Prevote v.voter v.proposal).2 <;>
      simp [VoteCollector.add, LruCache.containsKey, LruCache.withGetMut,
        hvt, hm, mlookup, hb]
  | Precommit =>
    simp [VoteCollector.add, LruCache.containsKey, LruCache.withGetMut,
      hvt, hm, mlookup]

theorem VoteCollector.add_snd_of_absent (c : VoteCollector) (v : Vote)
    (hm : mlookup c.votes.entries v.height = none) :
    (c.add v).2 = true := by
  cases hvt : v.vote_type <;>
    simp [VoteCollector.add, LruCache.containsKey, hvt, hm]

/-! ### Claim C2 -/

/-- C2, counterexample: with 17 distinct heights the height LRU (capacity
16) evicts height 0, after which re-adding the very vote that opened the
sequence is accepted again — all 18 adds return `true`, although the 18th
vote has the same `(height, round, vote_type, voter)` key as the first
accepted one. -/
theorem C2_counterexample :
    VoteCollector.new.addResults (evictionVotes ++ [prevoteAt 0])
      = List.replicate 18 true := by decide

/-- C2, amended: `add(v)` returns `true` iff no vote with the same
`(height, round, vote_type, voter)` key is *currently retained* (a
previously accepted vote may have been evicted by the bounded LRU caches,
after which the same key is accepted anew); at any time at most one target
is retained per key, namely the `Option Target` value of `retains`. -/
theorem C2_add_true_iff_not_retained (c : VoteCollector) (v : Vote) :
    (c.add v).2 = true
      ↔ c.retains v.height v.round v.vote_type v.voter = none := by
  unfold VoteCollector.retains
  cases hm : mlookup c.votes.entries v.height with
  | none => simp [VoteCollector.add_snd_of_absent c v hm, hm]
  | some rc =>
    rw [VoteCollector.add_snd_eq c v rc hm, RoundCollector.add_true_iff_round_absent]
    simp [hm]

/-! ### Claim C3 -/

/-- C3: starting from `VoteSet::new()`, every sequence of `VoteSet::add`
calls preserves `count = Σ votes_by_proposal = |votes_by_sender|`. -/
theorem C3_buildVoteSet_coherent (ops : List (Address × Target)) :
    (buildVoteSet ops).coherent :=
  buildVoteSet_loop_coherent ops VoteSet.new ⟨rfl, rfl⟩

/-! ### Claim C4 -/

/-- C4: once `add(a, v1)` has been accepted, after any further adds a later
`add(a, v2)` returns `false` and leaves the whole `VoteSet` unchanged, and
`votes_by_sender[a]` is still `v1`: the first accepted vote wins. -/
theorem C4_first_accepted_wins (s : VoteSet) (a : Address) (v1 : Target)
    (rest : List (Address × Target)) (v2 : Target)
    (h : (s.add a v1).2 = true) :
    mlookup ((rest.foldl (fun u p => (u.add p.1 p.2).1)
        (s.add a v1).1).votes_by_sender) a = some v1
    ∧ (rest.foldl (fun u p => (u.add p.1 p.2).1) (s.add a v1).1).add a v2
        = (rest.foldl (fun u p => (u.add p.1 p.2).1) (s.add a v1).1, false) := by
  have h0 : mlookup s.votes_by_sender a = none :=
    (VoteSet.add_true_iff_sender_absent s a v1).mp h
  have h1 : mlookup ((s.add a v1).1).votes_by_sender a = some v1 := by
    simp [VoteSet.add, h0, mlookup]
  have h2 := VoteSet.lookup_foldl_preserved rest (s.add a v1).1 a v1 h1
  exact ⟨h2, VoteSet.add_of_lookup_some _ a v1 v2 h2⟩

/-- C4, witness: voter `[1]` votes `[7]` into a fresh set, voter `[2]`
votes `[8]`, then voter `[1]` tries `[9]`: refused, nothing changes, and
`[1]` is still recorded with `[7]`. -/
theorem C4_first_accepted_wins_witness :
    mlookup ((([([2], [8])] : List (Address × Target)).foldl
        (fun u p => (u.add p.1 p.2).1)
        (VoteSet.new.add [1] [7]).1).votes_by_sender) [1] = some [7]
    ∧ (([([2], [8])] : List (Address × Target)).foldl
        (fun u p => (u.add p.1 p.2).1) (VoteSet.new.add [1] [7]).1).add [1] [9]
      = (([([2], [8])] : List (Address × Target)).foldl
          (fun u p => (u.add p.1 p.2).1) (VoteSet.new.add [1] [7]).1, false) :=
  C4_first_accepted_wins VoteSet.new [1] [7] [([2], [8])] [9] rfl

/-! ### Claim C5 -/

/-- C5: one `VoteCollector::add` call bumps `prevote_count[v.round]` by
exactly 1 (leaving every other round's entry unchanged) when it newly
accepts a `Prevote`, and leaves the whole `prevote_count` map unchanged
when the vote is a `Precommit` or a duplicate. -/
theorem C5_prevote_count_update (c : VoteCollector) (v : Vote) :
    (v.vote_type = VoteType.Prevote → (c.add v).2 = true →
      countOf (c.add v).1.prevote_count v.round
          = countOf c.prevote_count v.round + 1
      ∧ ∀ r : Nat, r ≠ v.round →
          countOf (c.add v).1.prevote_count r = countOf c.prevote_count r)
    ∧ ((v.vote_type = VoteType.Precommit ∨ (c.add v).2 = false) →
      (c.add v).1.prevote_count = c.prevote_count) := by
  have h := VoteCollector.add_prevote_count c v
  constructor
  · intro h1 h2
    rw [h, if_pos ⟨h1, h2⟩]
    exact ⟨countOf_bump_self _ _, fun r hr => countOf_bump_other _ _ _ hr⟩
  · intro h1
    rw [h, if_neg]
    rintro ⟨h2, h3⟩
    rcases h1 with h1 | h1
    · rw [h1] at h2; cases h2
    · rw [h1] at h3; cases h3

/-- C5, witness: the first prevote at round 0 in a fresh collector sets
`prevote_count[0]` to 1. -/
theorem C5_prevote_count_update_witness :
    countOf (VoteCollector.new.add (prevoteAt 0)).1.prevote_count 0 = 1 :=
  ((C5_prevote_count_update VoteCollector.new (prevoteAt 0)).1 rfl rfl).1

/-! ### Claim C6 -/

theorem mlookup_eraseKey_ne {α β : Type} [DecidableEq α]
    (m : List (α × β)) (k k' : α) (h : k' ≠ k) :
    mlookup (eraseKey m k) k' = mlookup m k' := by
  induction m with
  | nil => rfl
  | cons e rest ih =>
    obtain ⟨k'', v⟩ := e
    by_cases h2 : k'' = k
    · subst h2
      simp [eraseKey, mlookup, Ne.symm h] at ih ⊢
      exact ih
    · by_cases h3 : k'' = k'
      · subst h3; simp [eraseKey, mlookup, h2]
      · simp [eraseKey, mlookup, h2, h3] at ih ⊢
        exact ih

theorem mlookup_refresh {α β : Type} [DecidableEq α]
    (m : List (α × β)) (k : α) (v : β) (hk : mlookup m k = some v) (k' : α) :
    mlookup ((k, v) :: eraseKey m k) k' = mlookup m k' := by
  by_cases h : k = k'
  · subst h; simp [mlookup, hk]
  · simp [mlookup, h, mlookup_eraseKey_ne m k k' (Ne.symm h)]

theorem RoundCollector.get_voteset_round_snd (rc : RoundCollector) (r : Nat)
    (vt : VoteType) :
    (rc.get_voteset r vt).2
      = (mlookup rc.round_votes.entries r).bind
          fun sc => mlookup sc.step_votes vt := by
  unfold RoundCollector.get_voteset LruCache.touch StepCollector.get_voteset
  cases hm : mlookup rc.round_votes.entries r <;> simp [hm]

theorem RoundCollector.get_voteset_fst (rc : RoundCollector) (r : Nat)
    (vt : VoteType) (r' : Nat) :
    mlookup ((rc.get_voteset r vt).1).round_votes.entries r'
      = mlookup rc.round_votes.entries r' := by
  unfold RoundCollector.get_voteset LruCache.touch
  cases hm : mlookup rc.round_votes.entries r with
  | none => simp [hm]
  | some sc => simp [hm, mlookup_refresh _ _ _ hm]

theorem VoteCollector.get_voteset_result (c : VoteCollector) (h r : Nat)
    (vt : VoteType) :
    (c.get_voteset h r vt).2 = c.peek_voteset h r vt := by
  unfold VoteCollector.get_voteset LruCache.withGetMut VoteCollector.peek_voteset
  cases hm : mlookup c.votes.entries h with
  | none => simp [hm]
  | some rc => simp [hm, RoundCollector.get_voteset_round_snd]

theorem VoteCollector.get_voteset_peek_preserved (c : VoteCollector)
    (h r : Nat) (vt : VoteType) (h' r' : Nat) (vt' : VoteType) :
    (c.get_voteset h r vt).1.peek_voteset h' r' vt'
      = c.peek_voteset h' r' vt' := by
  unfold VoteCollector.get_voteset LruCache.withGetMut VoteCollector.peek_voteset
  cases hm : mlookup c.votes.entries h with
  | none => simp [hm]
  | some rc =>
    by_cases he : h = h'
    · subst he
      simp [hm, mlookup, RoundCollector.get_voteset_fst]
    · simp [hm, mlookup, he, mlookup_eraseKey_ne _ _ _ (Ne.symm he)]

/-- C6: `get_voteset(h, r, vote_type)` returns exactly the stored `VoteSet`
for that key (`None` when absent) without changing any stored contents: any
later `get_voteset` query — the same one or any other — returns the same
result as it would have before, and the prevote counter is untouched.  (In
Rust the returned set is a clone, so mutating it cannot affect the
collector; in this pure model that is reflected by the collector's stored
contents being unchanged.) -/
theorem C6_get_voteset_snapshot (c : VoteCollector) (h r : Nat)
    (vt : VoteType) (h' r' : Nat) (vt' : VoteType) :
    (c.get_voteset h r vt).2 = c.peek_voteset h r vt
    ∧ ((c.get_voteset h r vt).1.get_voteset h' r' vt').2
        = (c.get_voteset h' r' vt').2
    ∧ (c.get_voteset h r vt).1.prevote_count = c.prevote_count := by
  refine ⟨VoteCollector.get_voteset_result c h r vt, ?_, rfl⟩
  rw [VoteCollector.get_voteset_result, VoteCollector.get_voteset_result,
    VoteCollector.get_voteset_peek_preserved]

/-! ### Claim C9 -/

theorem mlookup_eq_none_iff {α β : Type} [DecidableEq α]
    (m : List (α × β)) (a : α) :
    mlookup m a = none ↔ a ∉ m.map (fun e => e.1) := by
  induction m with
  | nil => simp [mlookup]
  | cons e rest ih =>
    obtain ⟨k, v⟩ := e
    by_cases h : k = a
    · subst h; simp [mlookup]
    · have h' : a ≠ k := fun he => h he.symm
      simp [mlookup, h, h', ih]

theorem VoteSet.wf_add (s : VoteSet) (a : Address) (t : Target)
    (h : s.wf) : ((s.add a t).1).wf := by
  obtain ⟨h1, h2⟩ := h
  cases hm : mlookup s.votes_by_sender a with
  | some u => simpa [VoteSet.add, hm, VoteSet.wf] using ⟨h1, h2⟩
  | none =>
    constructor
    · simp only [VoteSet.add, hm, List.map_cons, List.nodup_cons]
      exact ⟨(mlookup_eq_none_iff _ _).mp hm, h1⟩
    · intro t'
      by_cases ht : t = t'
      · subst ht
        simp only [VoteSet.add, hm]
        rw [countOf_bump_self, h2 t]
        simp [List.filter]
      · simp only [VoteSet.add, hm]
        rw [countOf_bump_other _ _ _ (fun he => ht he.symm), h2 t']
        simp [List.filter, ht]

theorem buildVoteSet_loop_wf (ops : List (Address × Target)) (s : VoteSet)
    (h : s.wf) : (ops.foldl (fun u p => (u.add p.1 p.2).1) s).wf := by
  induction ops generalizing s with
  | nil => exact h
  | cons p rest ih => exact ih _ (VoteSet.wf_add _ _ _ h)

theorem buildVoteSet_wf (ops : List (Address × Target)) :
    (buildVoteSet ops).wf :=
  buildVoteSet_loop_wf ops VoteSet.new ⟨List.nodup_nil, fun _ => rfl⟩

theorem countP_filter_key (l : List (Address × Target))
    (hn : (l.map (fun e => e.1)).Nodup) (a : Address) (t : Target) :
    (l.filter (fun e => decide (e.2 = t))).countP (fun e => decide (e.1 = a))
      = if mlookup l a = some t then 1 else 0 := by
  induction l with
  | nil => simp [mlookup]
  | cons e rest ih =>
    obtain ⟨k, v⟩ := e
    simp only [List.map_cons, List.nodup_cons] at hn
    obtain ⟨hk, hn'⟩ := hn
    by_cases hka : k = a
    · subst hka
      have hnone : mlookup rest k = none := (mlookup_eq_none_iff rest k).mpr hk
      have hzero : (rest.filter (fun e => decide (e.2 = t))).countP
          (fun e => decide (e.1 = k)) = 0 := by
        rw [ih hn', hnone]
        simp
      by_cases hvt : v = t
      · subst hvt
        simp [List.filter_cons, List.countP_cons, mlookup, hzero]
      · simp [List.filter_cons, mlookup, hvt, hzero]
    · by_cases hvt : v = t
      · subst hvt
        simp [List.filter_cons, List.countP_cons, mlookup, hka, ih hn']
      · simp [List.filter_cons, mlookup, hka, hvt, ih hn']

/-- C9: `abstract_polc(height, round, vote_type, proposal)` on a `VoteSet`
built by adds returns votes that all carry exactly the supplied vote type,
height, round and proposal; it returns exactly one vote for a sender
recorded with target `proposal` and none for any other sender; and its
length equals `votes_by_proposal[proposal]` (0 when absent). -/
theorem C9_abstract_polc_spec (ops : List (Address × Target))
    (height round : Nat) (vt : VoteType) (proposal : Target) :
    (∀ v ∈ (buildVoteSet ops).abstract_polc height round vt proposal,
      v.vote_type = vt ∧ v.height = height ∧ v.round = round
        ∧ v.proposal = proposal)
    ∧ (∀ a : Address,
        ((buildVoteSet ops).abstract_polc height round vt proposal).countP
            (fun v => decide (v.voter = a))
          = if mlookup (buildVoteSet ops).votes_by_sender a = some proposal
            then 1 else 0)
    ∧ ((buildVoteSet ops).abstract_polc height round vt proposal).length
        = countOf (buildVoteSet ops).votes_by_proposal proposal := by
  obtain ⟨hn, hcnt⟩ := buildVoteSet_wf ops
  refine ⟨?_, ?_, ?_⟩
  · intro v hv
    simp only [VoteSet.abstract_polc, List.mem_map] at hv
    obtain ⟨e, _, rfl⟩ := hv
    exact ⟨rfl, rfl, rfl, rfl⟩
  · intro a
    have hkey := countP_filter_key (buildVoteSet ops).votes_by_sender hn a proposal
    rw [VoteSet.abstract_polc, List.countP_map]
    exact hkey
  · rw [VoteSet.abstract_polc, List.length_map]
    exact (hcnt proposal).symm

/-- C9, witness: in a set where voter `[1]` voted `[7]`, `abstract_polc`
for proposal `[7]` yields exactly one vote for voter `[1]`, and the yielded
vote carries the supplied fields. -/
theorem C9_abstract_polc_spec_witness :
    ((buildVoteSet [([1], [7])]).abstract_polc 3 4 VoteType.Prevote [7]).countP
        (fun v => decide (v.voter = [1])) = 1
    ∧ (⟨VoteType.Prevote, 3, 4, [7], [1]⟩ : Vote).vote_type
        = VoteType.Prevote := by
  constructor
  · have h := (C9_abstract_polc_spec [([1], [7])] 3 4 VoteType.Prevote [7]).2.1 [1]
    rw [h]
    decide
  · exact ((C9_abstract_polc_spec [([1], [7])] 3 4 VoteType.Prevote [7]).1
      ⟨VoteType.Prevote, 3, 4, [7], [1]⟩ (by decide)).1

/-! ### Claim C10 -/

theorem addAll_prevote_count (vs : List Vote) (c : VoteCollector) (r : Nat) :
    countOf (c.addAll vs).prevote_count r
      = countOf c.prevote_count r + acceptedPrevotesAt c r vs := by
  induction vs generalizing c with
  | nil => simp [VoteCollector.addAll, acceptedPrevotesAt]
  | cons v rest ih =>
    have hstep : countOf (c.add v).1.prevote_count r
        = countOf c.prevote_count r
          + (if v.vote_type = VoteType.Prevote ∧ v.round = r
                ∧ (c.add v).2 = true
             then 1 else 0) := by
      rw [VoteCollector.add_prevote_count]
      by_cases h1 : v.vote_type = VoteType.Prevote ∧ (c.add v).2 = true
      · rw [if_pos h1]
        by_cases h2 : v.round = r
        · subst h2
          rw [countOf_bump_self, if_pos ⟨h1.1, rfl, h1.2⟩]
        · rw [countOf_bump_other _ _ _ (fun he => h2 he.symm),
            if_neg (fun hc => h2 hc.2.1)]
          omega
      · rw [if_neg h1, if_neg (fun hc => h1 ⟨hc.1, hc.2.2⟩)]
        omega
    simp only [VoteCollector.addAll, List.foldl_cons] at ih ⊢
    rw [ih, hstep]
    simp only [acceptedPrevotesAt]
    omega

/-- C10, counterexample: 17 prevotes at round 0, one per height `0..16`,
leave `prevote_count[0] = 17`, while the collector's resident heights (the
LRU evicted height 0) hold only 16 prevotes at round 0 in total — the
counter is not the sum over resident heights. -/
theorem C10_counterexample :
    countOf (VoteCollector.new.addAll evictionVotes).prevote_count 0 = 17
    ∧ residentPrevotesAt (VoteCollector.new.addAll evictionVotes) 0 = 16 := by
  constructor <;> decide

/-- C10, amended: the prevote counter is keyed by round only:
`prevote_count[r]` equals the number of adds since the last
`clear_prevote_count` that newly accepted a prevote at round `r`, summed
across all heights (evictions never decrement it); `clear_prevote_count`
empties the whole map and leaves the stored votes unchanged. -/
theorem C10_prevote_count_by_round (vs : List Vote) (r : Nat) :
    countOf (VoteCollector.new.addAll vs).prevote_count r
      = acceptedPrevotesAt VoteCollector.new r vs
    ∧ (VoteCollector.new.addAll vs).clear_prevote_count.prevote_count = []
    ∧ (VoteCollector.new.addAll vs).clear_prevote_count.votes
        = (VoteCollector.new.addAll vs).votes := by
  refine ⟨?_, rfl, rfl⟩
  have h := addAll_prevote_count vs VoteCollector.new r
  simpa [VoteCollector.new, countOf, mlookup] using h

end BftRs
